import Mathlib

/-!
Verification of the conversational avatar backend (Python/FastAPI repository).

Each Python function relevant to the claims is embedded as an executable
Lean definition over explicit state:

* `src/backend/models/conversation.py` — `ConversationSession`,
  `ConversationManager` (sessions dict modelled as an association list,
  timestamps modelled as `Int` seconds).
* `src/backend/services/ai_service.py` — the mock branch of
  `AIService.generate_response`.
* `src/backend/routes/ai_routes.py` — `chat_with_ai`.
* `src/backend/utils/key_vault_helper.py` — `resolve_env_value`.
* `src/backend/main.py` — `get_speech_token` (upstream HTTP call modelled by
  its status/text as parameters).
* `src/backend/services/azure_rag_service.py` — `chunk_text` (fuel-indexed
  loop, `none` = the while loop has not finished within the given fuel).
* `src/temp_rag_files/document_service.py` — `create_document_chunks`.
* `src/temp_rag_files/rag_service.py` — `SimpleEmbeddingService.search_chunks`.
* `src/backend/routes/speech_to_text_routes.py` — `convert_audio_to_wav`.

Python string primitives (`find`, `rfind`, slicing with clamping, `strip`,
`split`, `count`, `lower`) are modelled on `List Char` following CPython
semantics, including negative-index handling.
-/

/-! ## Python string primitives -/

/-- Python whitespace (`str.isspace` members used by `strip`/`split`):
space, tab, newline, carriage return, vertical tab, form feed. -/
def isPySpace (c : Char) : Bool :=
  c = ' ' || c = '\t' || c = '\n' || c = '\r' || c = '\x0b' || c = '\x0c'

/-- Python slice-index normalisation for a string of length `L`: negative
indices count from the end and are clamped at 0; positive indices are
clamped at `L`. -/
def pyIdx (L : Nat) (i : Int) : Nat :=
  if i < 0 then (max 0 ((L : Int) + i)).toNat else min i.toNat L

/-- Python `s[a:b]` on a list of characters. -/
def pySlice (s : List Char) (a b : Int) : List Char :=
  (s.take (pyIdx s.length b)).drop (pyIdx s.length a)

/-- Python `s.strip()`: remove leading and trailing whitespace. -/
def pyStrip (s : List Char) : List Char :=
  ((s.dropWhile isPySpace).reverse.dropWhile isPySpace).reverse

/-- Python `s.find(c, a, b)` for a single character: the least index `i`
with `a' ≤ i < b'` (normalised bounds) such that `s[i] = c`, or `-1`. -/
def pyFind (s : List Char) (c : Char) (a b : Int) : Int :=
  let a' := pyIdx s.length a
  let b' := pyIdx s.length b
  match (List.range s.length).find? (fun i => a' ≤ i && i < b' && s.getD i ' ' == c) with
  | some i => (i : Int)
  | none => -1

/-- Python `s.rfind(c, a, b)` for a single character: the greatest index `i`
with `a' ≤ i < b'` such that `s[i] = c`, or `-1`. -/
def pyRfind (s : List Char) (c : Char) (a b : Int) : Int :=
  let a' := pyIdx s.length a
  let b' := pyIdx s.length b
  match ((List.range s.length).filter (fun i => a' ≤ i && i < b' && s.getD i ' ' == c)).getLast? with
  | some i => (i : Int)
  | none => -1

/-- Python `s.lower()` (ASCII case folding, as used on query/content text). -/
def pyLower (s : List Char) : List Char := s.map Char.toLower

/-- Scanner for Python `s.split()`: `cur` holds the reversed word being
accumulated; a whitespace run closes the current word (if any), and the
final word is emitted at the end. -/
def pySplitWsAux (cur : List Char) : List Char → List (List Char)
  | [] => if cur = [] then [] else [cur.reverse]
  | c :: cs =>
    if isPySpace c then
      if cur = [] then pySplitWsAux [] cs
      else cur.reverse :: pySplitWsAux [] cs
    else pySplitWsAux (c :: cur) cs

/-- Python `s.split()` with no separator: split on runs of whitespace,
dropping empty words. -/
def pySplitWs (s : List Char) : List (List Char) := pySplitWsAux [] s

/-- Scanner for Python `s.count(w)` with a non-empty pattern `w`: count
non-overlapping occurrences left to right; after a match at the current
position, the next `w.length - 1` characters are skipped (`skip`). -/
def pyCountAux (w : List Char) : List Char → Nat → Nat
  | [], _ => 0
  | c :: t, 0 =>
    if w.isPrefixOf (c :: t) then 1 + pyCountAux w t (w.length - 1)
    else pyCountAux w t 0
  | _ :: t, skip + 1 => pyCountAux w t skip

/-- Python `s.count(w)`: the empty pattern is counted `len(s) + 1` times
(CPython behaviour), otherwise non-overlapping occurrences. -/
def pyCount (s w : List Char) : Nat :=
  if w = [] then s.length + 1 else pyCountAux w s 0

/-! ## Association-list model of a Python dict (insertion ordered) -/

/-- Dict lookup `d.get(k)` / `d[k]`: first pair with the given key. -/
def assocGet (k : String) : List (String × α) → Option α
  | [] => none
  | p :: ps => if p.1 = k then some p.2 else assocGet k ps

/-- Dict assignment `d[k] = v`: replace the existing entry in place, or
append a new one (Python dicts preserve insertion order). -/
def assocSet (k : String) (v : α) : List (String × α) → List (String × α)
  | [] => [(k, v)]
  | p :: ps => if p.1 = k then (k, v) :: ps else p :: assocSet k v ps

theorem assocGet_assocSet_self (k : String) (v : α) (l : List (String × α)) :
    assocGet k (assocSet k v l) = some v := by
  induction l with
  | nil => simp [assocGet, assocSet]
  | cons p ps ih =>
    by_cases h : p.1 = k
    · simp [assocGet, assocSet, h]
    · simp [assocGet, assocSet, h, ih]

theorem assocGet_assocSet_ne (k k' : String) (v : α) (l : List (String × α))
    (h : k' ≠ k) : assocGet k' (assocSet k v l) = assocGet k' l := by
  have hk : ¬(k = k') := fun hh => h hh.symm
  induction l with
  | nil => simp only [assocSet, assocGet, if_neg hk]
  | cons p ps ih =>
    by_cases hp : p.1 = k
    · subst hp
      simp only [assocSet, if_pos rfl, assocGet, if_neg hk, if_neg hk]
    · simp only [assocSet, if_neg hp, assocGet]
      by_cases hp' : p.1 = k'
      · simp only [if_pos hp']
      · simp only [if_neg hp', ih]

/-! ## Conversation store (src/backend/models/conversation.py)

Timestamps (`datetime.now()`) are modelled as `Int` seconds and supplied
explicitly; the per-message uuid `id` and the optional metadata dict are
omitted (opaque, unused by every claim). -/

structure ConversationMessage where
  role : String
  content : String
  timestamp : Int
deriving Repr, DecidableEq

structure ConversationSession where
  session_id : String
  user_id : Option String
  messages : List ConversationMessage
  created_at : Int
  updated_at : Int
  context_summary : Option String
  topics : List String
  sentiment : String
deriving Repr, DecidableEq

/-- Constructor defaults of `ConversationSession` (pydantic field defaults);
`session_id` is the freshly generated uuid4, supplied as a parameter. -/
def ConversationSession.new (sid : String) (uid : Option String) (now : Int) :
    ConversationSession :=
  { session_id := sid, user_id := uid, messages := [], created_at := now,
    updated_at := now, context_summary := none, topics := [], sentiment := "neutral" }

/-- Method `ConversationSession.add_message`: append a message and refresh
`updated_at`. -/
def ConversationSession.add_message (s : ConversationSession)
    (role content : String) (now : Int) : ConversationSession :=
  { s with
    messages := s.messages ++ [{ role := role, content := content, timestamp := now }],
    updated_at := now }

/-- The manager's `self.sessions` dict: session id → session. -/
abbrev SessionStore := List (String × ConversationSession)

/-- Method `ConversationManager.create_session`: build a session under a
fresh uuid and register it; returns the session and the updated store. -/
def create_session (store : SessionStore) (uid : Option String)
    (freshId : String) (now : Int) : ConversationSession × SessionStore :=
  let s := ConversationSession.new freshId uid now
  (s, assocSet freshId s store)

/-- Method `ConversationManager.get_session`. -/
def get_session (store : SessionStore) (sid : String) : Option ConversationSession :=
  assocGet sid store

/-- Method `ConversationManager.get_or_create_session`: the Python guard is
`if session_id and session_id in self.sessions` — a `None` or empty-string
id is falsy, and only a known id returns the existing session. -/
def get_or_create_session (store : SessionStore) (session_id : Option String)
    (user_id : Option String) (freshId : String) (now : Int) :
    ConversationSession × SessionStore :=
  match session_id with
  | some sid =>
    if sid ≠ "" then
      match assocGet sid store with
      | some s => (s, store)
      | none => create_session store user_id freshId now
    else create_session store user_id freshId now
  | none => create_session store user_id freshId now

/-- Method `ConversationManager.cleanup_old_sessions`: collect the ids of
sessions strictly older than `now - timedelta(hours=max_age_hours)`, delete
each collected id from the dict, and return the number collected. -/
def cleanup_old_sessions (store : SessionStore) (now : Int) (max_age_hours : Int) :
    SessionStore × Nat :=
  let cutoff_time := now - 3600 * max_age_hours
  let expired_sessions :=
    (store.filter (fun p => p.2.updated_at < cutoff_time)).map (fun p => p.1)
  let store' := expired_sessions.foldl
    (fun st sid => st.filter (fun p => !(p.1 = sid))) store
  (store', expired_sessions.length)

/-! ## Claim C5: cleanup_old_sessions -/

theorem foldl_delete_eq_filter (ids : List String) (st : List (String × α)) :
    ids.foldl (fun s sid => s.filter (fun p => !(p.1 = sid))) st
      = st.filter (fun p => !(decide (p.1 ∈ ids))) := by
  induction ids generalizing st with
  | nil => simp
  | cons i is ih =>
    simp only [List.foldl_cons, ih, List.filter_filter]
    refine List.filter_congr (fun p _ => ?_)
    by_cases h1 : p.1 ∈ is <;> by_cases h2 : p.1 = i <;>
      simp [h1, h2, List.mem_cons]

/-- Claim C5: `cleanup_old_sessions(max_age_hours)` deletes exactly the
sessions whose `updated_at` is strictly older than `now` minus the
threshold, keeps every other entry unchanged and in place, and returns the
number of deleted sessions (the store's keys are unique, as in a dict). -/
theorem cleanup_old_sessions_spec (store : SessionStore) (now max_age_hours : Int)
    (hnd : (store.map Prod.fst).Nodup) :
    (cleanup_old_sessions store now max_age_hours).1
      = store.filter (fun p => !(p.2.updated_at < now - 3600 * max_age_hours)) ∧
    (cleanup_old_sessions store now max_age_hours).2
      = (store.filter (fun p => p.2.updated_at < now - 3600 * max_age_hours)).length := by
  have hinj := List.inj_on_of_nodup_map hnd
  constructor
  · show (((store.filter _).map _).foldl _ store) = _
    rw [foldl_delete_eq_filter]
    refine List.filter_congr (fun p hp => ?_)
    have hiff : p.1 ∈ (store.filter
        (fun q => q.2.updated_at < now - 3600 * max_age_hours)).map (fun q => q.1)
        ↔ p.2.updated_at < now - 3600 * max_age_hours := by
      constructor
      · intro hmem
        obtain ⟨q, hq, hqp⟩ := List.mem_map.mp hmem
        obtain ⟨hqmem, hqold⟩ := List.mem_filter.mp hq
        have heq : q = p := hinj hqmem hp hqp
        subst heq
        exact of_decide_eq_true hqold
      · intro hold
        exact List.mem_map.mpr ⟨p, List.mem_filter.mpr ⟨hp, decide_eq_true hold⟩, rfl⟩
    exact congrArg (fun b => !b) (decide_eq_decide.mpr hiff)
  · show ((store.filter _).map _).length = _
    rw [List.length_map]

/-- Witness for C5 at a concrete store and `now = 90000`: session `a` was
last updated at `now - 24h - 1s = 3599` and is removed by a 24-hour
cleanup; session `b` was last updated at `now - 23h = 7200` and is kept;
the returned count is 1. -/
def demoSessA : ConversationSession := ConversationSession.new "a" none 3599

def demoSessB : ConversationSession := ConversationSession.new "b" none 7200

def demoCleanupStore : SessionStore := [("a", demoSessA), ("b", demoSessB)]

theorem cleanup_old_sessions_witness :
    (cleanup_old_sessions demoCleanupStore 90000 24).1 = [("b", demoSessB)] ∧
    (cleanup_old_sessions demoCleanupStore 90000 24).2 = 1 := by
  have h := cleanup_old_sessions_spec demoCleanupStore 90000 24 (by decide)
  exact ⟨h.1.trans (by decide), h.2.trans (by decide)⟩

/-! ## Claim C9: get_or_create_session never adopts an unknown client id -/

/-- Claim C9: for a non-empty session id that is not a key of the store,
`get_or_create_session` falls through to `create_session`: the returned
session carries the freshly generated uuid (which, being fresh, differs
from the supplied id), it is registered under that fresh id, and the
client-supplied id is still not a key of the store. Uuid freshness
(`freshId ≠ sid`) is an assumption about the uuid4 generator. -/
theorem get_or_create_unknown_id_fresh (store : SessionStore) (sid : String)
    (uid : Option String) (freshId : String) (now : Int)
    (hne : sid ≠ "") (habs : assocGet sid store = none) (hfresh : freshId ≠ sid) :
    let r := get_or_create_session store (some sid) uid freshId now
    r.1.session_id = freshId ∧ r.1.session_id ≠ sid ∧
    assocGet freshId r.2 = some r.1 ∧ assocGet sid r.2 = none := by
  intro r
  have hr : r = create_session store uid freshId now := by
    show get_or_create_session store (some sid) uid freshId now = _
    simp only [get_or_create_session, if_pos hne, habs]
  refine ⟨?_, ?_, ?_, ?_⟩
  · rw [hr]; rfl
  · rw [hr]; exact hfresh
  · rw [hr]; exact assocGet_assocSet_self freshId _ store
  · rw [hr]
    exact (assocGet_assocSet_ne freshId sid _ store (Ne.symm hfresh)).trans habs

def demoStore9 : SessionStore := [("known", ConversationSession.new "known" none 0)]

theorem get_or_create_unknown_id_fresh_witness :
    (get_or_create_session demoStore9 (some "client-id") none "uuid-fresh" 5).1.session_id
        = "uuid-fresh" ∧
    (get_or_create_session demoStore9 (some "client-id") none "uuid-fresh" 5).1.session_id
        ≠ "client-id" ∧
    assocGet "uuid-fresh"
        (get_or_create_session demoStore9 (some "client-id") none "uuid-fresh" 5).2
      = some (get_or_create_session demoStore9 (some "client-id") none "uuid-fresh" 5).1 ∧
    assocGet "client-id"
        (get_or_create_session demoStore9 (some "client-id") none "uuid-fresh" 5).2 = none :=
  get_or_create_unknown_id_fresh demoStore9 "client-id" none "uuid-fresh" 5
    (by decide) (by decide) (by decide)

/-! ## AI service (src/backend/services/ai_service.py), mock branch

Floating-point inputs/outputs (`temperature`, `response_time`) are modelled
as opaque `Int` parameters: no claim depends on their values. -/

structure ChatMessage where
  role : String
  content : String
  timestamp : Option String
deriving Repr, DecidableEq

/-- Pydantic model `AIResponse` of `ai_service.py`: fields `content`,
`model_used`, `tokens_used`, `response_time`, `conversation_id`. -/
structure AIResponse where
  content : String
  model_used : String
  tokens_used : Option Nat
  response_time : Int
  conversation_id : Option String
deriving Repr, DecidableEq

/-- The `mock_responses` list built inside `generate_response`: four canned
Japanese strings, the first three embedding the user message (f-strings). -/
def mock_responses (user_message : String) : List String :=
  [ "こんにちは！あなたの質問「" ++ user_message ++ "」にお答えします。これはモック応答です。",
    "興味深いご質問ですね。「" ++ user_message ++ "」について説明します。実際のAIサービスが利用可能になると、より詳細な応答を提供できます。",
    "ありがとうございます！「" ++ user_message ++ "」に関して、開発環境でのテスト応答をお返しします。",
    "日本語での自然な会話をテストしています。実際のGPT-4.1が接続されると、より高度な応答が可能になります。" ]

/-- Mock branch of `AIService.generate_response` (`use_mock` true): pick
`mock_responses[len(user_message) % len(mock_responses)]`, report model
`"mock-gpt-4.1"` and token count `len(response_content)`; the elapsed wall
time (`time.time() - start_time`) is the opaque `elapsed` parameter. The
history, system prompt, max-token and temperature arguments are accepted
and ignored, as in the source. -/
def generate_response_mock (user_message : String)
    (conversation_history : List ChatMessage) (system_prompt : Option String)
    (max_tokens : Nat) (temperature : Int) (elapsed : Int) : AIResponse :=
  let rs := mock_responses user_message
  let response_content := rs.getD (user_message.length % rs.length) ""
  { content := response_content,
    model_used := "mock-gpt-4.1",
    tokens_used := some response_content.length,
    response_time := elapsed,
    conversation_id := none }

/-! ## Claim C8: mock generate_response is deterministic in its text -/

/-- Claim C8: with mock AI mode enabled, the returned text is a pure
function of the user message alone — two calls with the identical message
(under any histories, prompts, parameters or elapsed times) return the
identical canned content, selected by `len(user_message) mod 4`; the
reported token count is that string's character length and the model name
is `"mock-gpt-4.1"`. -/
theorem generate_response_mock_deterministic (msg : String)
    (h₁ h₂ : List ChatMessage) (sp₁ sp₂ : Option String) (mt₁ mt₂ : Nat)
    (t₁ t₂ e₁ e₂ : Int) :
    (generate_response_mock msg h₁ sp₁ mt₁ t₁ e₁).content
      = (generate_response_mock msg h₂ sp₂ mt₂ t₂ e₂).content ∧
    (generate_response_mock msg h₁ sp₁ mt₁ t₁ e₁).content
      = (mock_responses msg).getD (msg.length % 4) "" ∧
    (generate_response_mock msg h₁ sp₁ mt₁ t₁ e₁).tokens_used
      = some (generate_response_mock msg h₁ sp₁ mt₁ t₁ e₁).content.length ∧
    (generate_response_mock msg h₁ sp₁ mt₁ t₁ e₁).model_used = "mock-gpt-4.1" :=
  ⟨rfl, rfl, rfl, rfl⟩

/-! ## Chat route (src/backend/routes/ai_routes.py) -/

structure ChatRequest where
  message : String
  session_id : Option String
  user_id : Option String
  system_prompt : Option String
  max_tokens : Nat
  temperature : Int
deriving Repr, DecidableEq

structure ChatResponse where
  response : String
  session_id : String
  ai_model : String
  tokens_used : Option Nat
  response_time : Int
deriving Repr, DecidableEq

structure HttpError where
  status : Nat
  detail : String
deriving Repr, DecidableEq

/-- Pydantic attribute access `ai_response.ai_model` performed by
`chat_with_ai`: the `AIResponse` class declares no field named `ai_model`
(its field is `model_used`), so the access raises `AttributeError`;
modelled as `none`. -/
def AIResponse.ai_model? (_r : AIResponse) : Option String := none

/-- Detail string of the 500 produced when the `ai_model` attribute access
raises (`detail=f"Failed to generate AI response: ..."`). -/
def attrErrorDetail : String :=
  "Failed to generate AI response: AttributeError: AIResponse object has no attribute ai_model"

/-- Handler `chat_with_ai` of `POST /ai/chat`. The awaited
`generate_response` call is the parameter `gen` (`Except.error` = the call
raised); `freshId` is the uuid used if a session must be created and `now`
the current time. Mirrors the source: get-or-create the session, append
the user message, generate, then build the assistant-message metadata dict
`{"ai_model": ai_response.ai_model, ...}` — whose attribute access fails —
before appending the assistant message and returning the `ChatResponse`.
Any exception is caught and mapped to HTTP 500. The background
context-analysis task runs after the response and does not affect the
returned value or the store at return time. -/
def chat_with_ai (store : SessionStore) (req : ChatRequest) (freshId : String)
    (now : Int) (gen : Except String AIResponse) :
    Except HttpError ChatResponse × SessionStore :=
  let r := get_or_create_session store req.session_id req.user_id freshId now
  let session := r.1
  let st1 := r.2
  let session1 := session.add_message "user" req.message now
  let st2 := assocSet session.session_id session1 st1
  match gen with
  | Except.error e =>
    (Except.error { status := 500, detail := "Failed to generate AI response: " ++ e }, st2)
  | Except.ok ai =>
    match ai.ai_model? with
    | none =>
      (Except.error { status := 500, detail := attrErrorDetail }, st2)
    | some m =>
      let session2 := session1.add_message "assistant" ai.content now
      let st3 := assocSet session.session_id session2 st2
      (Except.ok { response := ai.content, session_id := session.session_id,
                   ai_model := m, tokens_used := ai.tokens_used,
                   response_time := ai.response_time }, st3)

/-- Handler `get_conversation_details` of `GET /ai/conversations/{id}`,
restricted to the message list it returns (`none` = HTTP 404). -/
def get_conversation_details (store : SessionStore) (sid : String) :
    Option (List ConversationMessage) :=
  (assocGet sid store).map (fun s => s.messages)

/-! ## Claim C1: the mock chat scenario (code bug) -/

def c1_request : ChatRequest :=
  { message := "こんにちは", session_id := none, user_id := none,
    system_prompt := none, max_tokens := 2000, temperature := 7 }

/-- The chat handler evaluated on the spec's end-to-end scenario: empty
store, message こんにちは, no session id, mock mode (generation succeeds
with the mock response). -/
def c1_outcome : Except HttpError ChatResponse × SessionStore :=
  chat_with_ai [] c1_request "fresh-session-1" 0
    (Except.ok (generate_response_mock "こんにちは" [] none 2000 7 1))

/-- Claim C1 (code bug): the mock-mode chat request does NOT return 200
with two stored messages. The handler reads `ai_response.ai_model`, but
`AIResponse` declares `model_used`, so the access raises `AttributeError`
after the user message was appended: the endpoint returns HTTP 500 and the
conversation holds exactly one message, the user's. -/
theorem chat_mock_attribute_error :
    c1_outcome.1 = Except.error { status := 500, detail := attrErrorDetail } ∧
    (get_conversation_details c1_outcome.2 "fresh-session-1").map
        (fun ms => ms.map (fun m => m.role)) = some ["user"] := by
  constructor
  · rfl
  · rfl

/-! ## Claim C10: the error path performs no rollback -/

/-- Claim C10: for every store, request, fresh id, timestamp and generation
outcome, the handler appends the user message before generation is
attempted, and on the failing path (which, given the `ai_model` attribute
bug, is every path) it returns HTTP 500 while the session kept in the
store still ends with that user message and has `updated_at` refreshed to
`now` — no rollback happens. -/
theorem chat_error_path_keeps_user_message (store : SessionStore)
    (req : ChatRequest) (freshId : String) (now : Int)
    (gen : Except String AIResponse) :
    ∃ e s, (chat_with_ai store req freshId now gen).1 = Except.error e ∧
      e.status = 500 ∧
      assocGet (get_or_create_session store req.session_id req.user_id freshId now).1.session_id
        (chat_with_ai store req freshId now gen).2 = some s ∧
      s.messages.getLast? = some { role := "user", content := req.message, timestamp := now } ∧
      s.updated_at = now := by
  cases gen with
  | error e =>
    exact ⟨_, _, rfl, rfl, assocGet_assocSet_self _ _ _,
      by simp [ConversationSession.add_message], rfl⟩
  | ok ai =>
    exact ⟨_, _, rfl, rfl, assocGet_assocSet_self _ _ _,
      by simp [ConversationSession.add_message], rfl⟩

/-! ## Key Vault helper (src/backend/utils/key_vault_helper.py)

The vault itself (`KeyVaultHelper.get_secret`) returns `None` when the
vault is not configured, when the fetch raises, or when the secret is
absent; it is modelled by the parameter `get_secret : List Char → Option
(List Char)`. Strings are `List Char`; the brace characters of the
`$\x7b...\x7d` pattern are written with `\x7b`/`\x7d` escapes. -/

/-- Literal prefix of the regex `\$\x7bKEY_VAULT_SECRET:([^\x7d]+)\x7d`
used by `resolve_env_value`. -/
def vaultPat : List Char := "$\x7bKEY_VAULT_SECRET:".toList

/-- CPython `re.match` of the pattern `\$\x7bKEY_VAULT_SECRET:([^\x7d]+)\x7d`
against the start of the string: the input must begin with the literal
prefix, followed by at least one non-`\x7d` character (the group, greedy
up to the first `\x7d`), followed by `\x7d`; `re.match` anchors only at
the start, so trailing characters are permitted. Returns group 1. -/
def reMatchVault (value : List Char) : Option (List Char) :=
  if value.take vaultPat.length = vaultPat then
    let rest := value.drop vaultPat.length
    let name := rest.takeWhile (fun c => c != '\x7d')
    if name ≠ [] ∧ (rest.drop name.length).head? = some '\x7d' then some name
    else none
  else none

/-- Static method `KeyVaultHelper.resolve_env_value`: empty/`None` values
are returned as-is; a matched Key-Vault reference is resolved through
`get_secret`, falling back to the original value when the secret is
missing or empty (`if secret_value:` truthiness); everything else is
returned unchanged. -/
def resolve_env_value (get_secret : List Char → Option (List Char))
    (value : List Char) : List Char :=
  if value = [] then value
  else
    match reMatchVault value with
    | some secret_name =>
      match get_secret secret_name with
      | some secret_value => if secret_value ≠ [] then secret_value else value
      | none => value
    | none => value

/-! ## Claim C3: the secret-indirection pattern -/

/-- Counterexample to C3 as stated: the resolver's pattern token is
`KEY_VAULT_SECRET`, not `VAULT_SECRET`. A string of the exact literal
form `$\x7bVAULT_SECRET:<name>\x7d` is returned unchanged even when the
vault is configured and holds the secret, instead of being resolved to
the secret's value. -/
theorem resolve_env_value_vault_secret_counterexample :
    resolve_env_value (fun _ => some "the-secret-value".toList)
        "$\x7bVAULT_SECRET:my-secret\x7d".toList
      = "$\x7bVAULT_SECRET:my-secret\x7d".toList ∧
    resolve_env_value (fun _ => some "the-secret-value".toList)
        "$\x7bVAULT_SECRET:my-secret\x7d".toList
      ≠ "the-secret-value".toList := by
  constructor
  · rfl
  · decide


theorem takeWhile_append_of_all (p : Char → Bool) (l₁ l₂ : List Char)
    (h : ∀ a ∈ l₁, p a = true) :
    (l₁ ++ l₂).takeWhile p = l₁ ++ l₂.takeWhile p := by
  induction l₁ with
  | nil => simp
  | cons a t ih =>
    simp only [List.cons_append,
      List.takeWhile_cons_of_pos (h a (List.mem_cons_self a t)),
      ih (fun b hb => h b (List.mem_cons_of_mem a hb))]

theorem reMatchVault_of_wellformed (name rest : List Char)
    (hne : name ≠ []) (hnb : ∀ c ∈ name, c ≠ '\x7d') :
    reMatchVault (vaultPat ++ name ++ '\x7d' :: rest) = some name := by
  have htake : (vaultPat ++ name ++ '\x7d' :: rest).take vaultPat.length = vaultPat := by
    rw [List.append_assoc, List.take_left]
  have hdrop : (vaultPat ++ name ++ '\x7d' :: rest).drop vaultPat.length
      = name ++ '\x7d' :: rest := by
    rw [List.append_assoc, List.drop_left]
  have htw : (name ++ '\x7d' :: rest).takeWhile (fun c => c != '\x7d') = name := by
    rw [takeWhile_append_of_all _ name _ (fun a ha => by simpa using hnb a ha)]
    simp [List.takeWhile_cons]
  simp only [reMatchVault, htake, hdrop, htw, eq_self_iff_true, if_true]
  simp only [List.drop_left, List.head?_cons]
  exact if_pos ⟨hne, trivial⟩

/-- Claim C3, amended: the resolver's pattern token is `KEY_VAULT_SECRET`
(matched by `re.match`, i.e. anchored at the start only, so trailing
characters after the closing brace are tolerated). For every input
beginning with `$\x7bKEY_VAULT_SECRET:<name>\x7d` (name non-empty, no
closing brace inside), the named secret is fetched and its value returned
when the fetch yields a non-empty value; the original string is returned
unchanged when the vault is unconfigured / the fetch fails (`get_secret`
returns none) or the secret is empty; every input the pattern does not
match is returned unchanged. -/
theorem resolve_env_value_spec (get_secret : List Char → Option (List Char))
    (name rest : List Char) (hne : name ≠ []) (hnb : ∀ c ∈ name, c ≠ '\x7d') :
    (∀ v, get_secret name = some v → v ≠ [] →
      resolve_env_value get_secret (vaultPat ++ name ++ '\x7d' :: rest) = v) ∧
    (get_secret name = none →
      resolve_env_value get_secret (vaultPat ++ name ++ '\x7d' :: rest)
        = vaultPat ++ name ++ '\x7d' :: rest) ∧
    (get_secret name = some [] →
      resolve_env_value get_secret (vaultPat ++ name ++ '\x7d' :: rest)
        = vaultPat ++ name ++ '\x7d' :: rest) ∧
    (∀ s : List Char, reMatchVault s = none → resolve_env_value get_secret s = s) := by
  have hval : vaultPat ++ name ++ '\x7d' :: rest ≠ [] := by
    simp [vaultPat]
  have hm := reMatchVault_of_wellformed name rest hne hnb
  refine ⟨?_, ?_, ?_, ?_⟩
  · intro v hv hvne
    simp only [resolve_env_value, if_neg hval, hm, hv, if_pos hvne]
  · intro hv
    simp only [resolve_env_value, if_neg hval, hm, hv]
  · intro hv
    simp only [resolve_env_value, if_neg hval, hm, hv]
    simp
  · intro s hs
    by_cases hsempty : s = []
    · simp [resolve_env_value, hsempty]
    · simp only [resolve_env_value, if_neg hsempty, hs]

/-- Witness for C3 at a concrete vault holding `openai-api-key ↦ k123`. -/
theorem resolve_env_value_spec_witness :
    resolve_env_value
        (fun n => if n = "openai-api-key".toList then some "k123".toList else none)
        "$\x7bKEY_VAULT_SECRET:openai-api-key\x7d".toList
      = "k123".toList := by
  have h := (resolve_env_value_spec
    (fun n => if n = "openai-api-key".toList then some "k123".toList else none)
    "openai-api-key".toList [] (by decide) (by decide)).1 "k123".toList
    (by decide) (by decide)
  have harg : vaultPat ++ "openai-api-key".toList ++ '\x7d' :: []
      = "$\x7bKEY_VAULT_SECRET:openai-api-key\x7d".toList := by decide
  rw [harg] at h
  exact h

/-! ## Speech token endpoint (src/backend/main.py) -/

/-- Environment as read by `get_speech_token`: `os.getenv` yields `None`
when a variable is unset. -/
structure SpeechEnv where
  speech_key : Option String
  speech_region : Option String
deriving Repr, DecidableEq

/-- Outcome of `GET /api/get-speech-token`: HTTP status, whether the
upstream token-issuance POST was attempted, and the returned body parts. -/
structure SpeechTokenOutcome where
  status : Nat
  called_upstream : Bool
  token : Option String
  region : Option String
deriving Repr, DecidableEq

/-- Python truthiness of `not value` for an optional string: `None` and
the empty string are falsy. -/
def falsyStr : Option String → Bool
  | none => true
  | some s => s = ""

/-- Handler `get_speech_token`: 400 when key or region is missing/empty,
400 when either still holds its placeholder, otherwise POST to the
token-issuance endpoint (whose response is abstracted by the
`upstream_status`/`upstream_text` parameters): 200 with the token on
upstream 200, else 401. -/
def get_speech_token (env : SpeechEnv) (upstream_status : Nat)
    (upstream_text : String) : SpeechTokenOutcome :=
  if falsyStr env.speech_key || falsyStr env.speech_region then
    { status := 400, called_upstream := false, token := none, region := none }
  else if env.speech_key = some "paste-your-speech-key-here"
      || env.speech_region = some "paste-your-speech-region-here" then
    { status := 400, called_upstream := false, token := none, region := none }
  else if upstream_status = 200 then
    { status := 200, called_upstream := true, token := some upstream_text,
      region := env.speech_region }
  else
    { status := 401, called_upstream := true, token := none, region := none }

/-! ## Claim C4: token endpoint guards -/

/-- Claim C4: whenever `SPEECH_KEY` or `SPEECH_REGION` is absent (or
empty — both are falsy to `not`), or either holds its literal placeholder,
the endpoint returns 400 and never attempts the upstream POST; exactly
otherwise the upstream call is made, an upstream 200 passes the token
through as HTTP 200, and any non-200 upstream status is mapped to 401. -/
theorem get_speech_token_spec (env : SpeechEnv) (us : Nat) (ut : String) :
    ((falsyStr env.speech_key = true ∨ falsyStr env.speech_region = true
        ∨ env.speech_key = some "paste-your-speech-key-here"
        ∨ env.speech_region = some "paste-your-speech-region-here") →
      (get_speech_token env us ut).status = 400 ∧
      (get_speech_token env us ut).called_upstream = false) ∧
    (¬(falsyStr env.speech_key = true ∨ falsyStr env.speech_region = true
        ∨ env.speech_key = some "paste-your-speech-key-here"
        ∨ env.speech_region = some "paste-your-speech-region-here") →
      (get_speech_token env us ut).called_upstream = true ∧
      (us = 200 → (get_speech_token env us ut).status = 200 ∧
        (get_speech_token env us ut).token = some ut) ∧
      (us ≠ 200 → (get_speech_token env us ut).status = 401)) := by
  cases hf : (falsyStr env.speech_key || falsyStr env.speech_region) with
  | true =>
    refine ⟨fun _ => ⟨?_, ?_⟩, fun hnb => absurd ?_ hnb⟩
    · simp [get_speech_token, hf]
    · simp [get_speech_token, hf]
    · rcases Bool.or_eq_true_iff.mp hf with h | h
      · exact Or.inl h
      · exact Or.inr (Or.inl h)
  | false =>
    have hfk : falsyStr env.speech_key = false := (Bool.or_eq_false_iff.mp hf).1
    have hfr : falsyStr env.speech_region = false := (Bool.or_eq_false_iff.mp hf).2
    cases hp : (decide (env.speech_key = some "paste-your-speech-key-here")
        || decide (env.speech_region = some "paste-your-speech-region-here")) with
    | true =>
      refine ⟨fun _ => ⟨?_, ?_⟩, fun hnb => absurd ?_ hnb⟩
      · simp [get_speech_token, hf, hp]
      · simp [get_speech_token, hf, hp]
      · rcases Bool.or_eq_true_iff.mp hp with h | h
        · exact Or.inr (Or.inr (Or.inl (of_decide_eq_true h)))
        · exact Or.inr (Or.inr (Or.inr (of_decide_eq_true h)))
    | false =>
      have hpk : ¬(env.speech_key = some "paste-your-speech-key-here") :=
        of_decide_eq_false (Bool.or_eq_false_iff.mp hp).1
      have hpr : ¬(env.speech_region = some "paste-your-speech-region-here") :=
        of_decide_eq_false (Bool.or_eq_false_iff.mp hp).2
      refine ⟨fun hb => ?_, fun _ => ⟨?_, fun hus => ⟨?_, ?_⟩, fun hus => ?_⟩⟩
      · rcases hb with h | h | h | h
        · rw [hfk] at h; exact absurd h Bool.false_ne_true
        · rw [hfr] at h; exact absurd h Bool.false_ne_true
        · exact absurd h hpk
        · exact absurd h hpr
      · by_cases hus : us = 200 <;> simp [get_speech_token, hf, hp, hus]
      · simp [get_speech_token, hf, hp, hus]
      · simp [get_speech_token, hf, hp, hus]
      · simp [get_speech_token, hf, hp, hus]

def envPlaceholder : SpeechEnv :=
  { speech_key := some "paste-your-speech-key-here", speech_region := some "japaneast" }

def envConfigured : SpeechEnv :=
  { speech_key := some "k", speech_region := some "japaneast" }

/-- Witness for C4: with the placeholder key and a real region the
endpoint answers 400 without calling upstream; with plausible values and
an upstream 403 it calls upstream and answers 401. -/
theorem get_speech_token_spec_witness :
    (get_speech_token envPlaceholder 200 "tok").status = 400 ∧
    (get_speech_token envPlaceholder 200 "tok").called_upstream = false ∧
    (get_speech_token envConfigured 403 "denied").called_upstream = true ∧
    (get_speech_token envConfigured 403 "denied").status = 401 := by
  have h1 := (get_speech_token_spec envPlaceholder 200 "tok").1 (by decide)
  have h2 := (get_speech_token_spec envConfigured 403 "denied").2 (by decide)
  exact ⟨h1.1, h1.2, h2.1, h2.2.2 (by decide)⟩

/-! ## WAV conversion (src/backend/routes/speech_to_text_routes.py)

Byte strings are `List Nat` (each element one byte). `struct.pack` with
formats `<I`/`<H` produces little-endian bytes and raises `struct.error`
when the value is out of range; the try/except around the whole body then
returns the original bytes. -/

def riffMagic : List Nat := [82, 73, 70, 70]

def waveMagic : List Nat := [87, 65, 86, 69]

def fmtMagic : List Nat := [102, 109, 116, 32]

def dataMagic : List Nat := [100, 97, 116, 97]

/-- Little-endian 32-bit byte encoding (total function). -/
def le32 (n : Nat) : List Nat :=
  [n % 256, n / 256 % 256, n / 65536 % 256, n / 16777216 % 256]

/-- Little-endian 16-bit byte encoding (total function). -/
def le16 (n : Nat) : List Nat := [n % 256, n / 256 % 256]

/-- Python `struct.pack('<I', n)`: fails for values outside 32 bits. -/
def packU32le (n : Nat) : Option (List Nat) :=
  if n < 4294967296 then some (le32 n) else none

/-- Python `struct.pack('<H', n)`: fails for values outside 16 bits. -/
def packU16le (n : Nat) : Option (List Nat) :=
  if n < 65536 then some (le16 n) else none

/-- Byte assembly of the synthesized WAV container in
`convert_audio_to_wav`: RIFF header (size = 36 + data length), `WAVE`,
`fmt ` subchunk (PCM, `channels`, `sample_rate`, byte rate =
`sample_rate * channels * 2`, block align = `channels * 2`, 16-bit), then
the `data` subchunk holding the raw bytes. `none` models a raised
`struct.error`. -/
def build_wav_bytes (audio : List Nat) (sample_rate channels : Nat) :
    Option (List Nat) := do
  let byte_rate := sample_rate * channels * 2
  let block_align := channels * 2
  let sz ← packU32le (36 + audio.length)
  let subsz ← packU32le 16
  let fmtcode ← packU16le 1
  let ch ← packU16le channels
  let sr ← packU32le sample_rate
  let br ← packU32le byte_rate
  let ba ← packU16le block_align
  let bits ← packU16le 16
  let datasz ← packU32le audio.length
  pure (riffMagic ++ sz ++ waveMagic ++ fmtMagic ++ subsz ++ fmtcode ++ ch
    ++ sr ++ br ++ ba ++ bits ++ dataMagic ++ datasz ++ audio)

/-- Helper `convert_audio_to_wav(audio_data, sample_rate=16000,
channels=1)`: bytes already carrying `RIFF`/`WAVE` markers are returned
unchanged; otherwise the raw bytes are wrapped in a synthesized 44-byte
WAV header; if header synthesis raises, the except handler returns the
original bytes. -/
def convert_audio_to_wav (audio : List Nat) (sample_rate channels : Nat) :
    List Nat :=
  if audio.take 4 = riffMagic ∧ (audio.drop 8).take 4 = waveMagic then audio
  else
    match build_wav_bytes audio sample_rate channels with
    | some out => out
    | none => audio

theorem build_wav_bytes_none (audio : List Nat) (sr ch : Nat)
    (h : packU32le (36 + audio.length) = none) :
    build_wav_bytes audio sr ch = none := by
  simp [build_wav_bytes, h]

theorem convert_audio_to_wav_fallback (audio : List Nat) (sr ch : Nat)
    (hriff : ¬(audio.take 4 = riffMagic ∧ (audio.drop 8).take 4 = waveMagic))
    (hb : build_wav_bytes audio sr ch = none) :
    convert_audio_to_wav audio sr ch = audio := by
  unfold convert_audio_to_wav
  rw [if_neg hriff, hb]

/-! ## Claim C7: the WAV conversion relation -/

/-- Counterexample to C7 as stated: the wrap branch is not total. For a
non-RIFF input of 2^32 bytes, `struct.pack('<I', 36 + len)` raises
`struct.error` (value out of 32-bit range), the except handler returns the
input unchanged, and no 44-byte header is prepended. -/
theorem convert_audio_to_wav_counterexample :
    convert_audio_to_wav (List.replicate 4294967296 0) 16000 1
        = List.replicate 4294967296 0 ∧
    (List.replicate 4294967296 (0 : Nat)).take 4 ≠ riffMagic ∧
    (convert_audio_to_wav (List.replicate 4294967296 0) 16000 1).length
        ≠ (List.replicate 4294967296 (0 : Nat)).length + 44 := by
  have htake : (List.replicate 4294967296 (0 : Nat)).take 4 = List.replicate 4 0 := by
    rw [List.take_replicate]
    norm_num
  have hne : (List.replicate 4294967296 (0 : Nat)).take 4 ≠ riffMagic := by
    rw [htake]; decide
  have hpack : packU32le (36 + (List.replicate 4294967296 (0 : Nat)).length) = none := by
    rw [List.length_replicate]
    simp [packU32le]
  have hconv : convert_audio_to_wav (List.replicate 4294967296 0) 16000 1
      = List.replicate 4294967296 0 :=
    convert_audio_to_wav_fallback _ 16000 1 (fun hc => hne hc.1)
      (build_wav_bytes_none _ 16000 1 hpack)
  refine ⟨hconv, hne, ?_⟩
  rw [hconv]
  omega

/-- Claim C7, amended: RIFF/WAVE-marked byte strings are returned
unchanged, and every other byte string of length at most 2^32 - 37 (so
that the RIFF size field fits 32 bits) is returned as the synthesized
44-byte header (16 kHz, mono, 16-bit PCM: byte rate 32000, block align 2)
followed by the original bytes; longer non-RIFF inputs fall back to the
input unchanged (see the counterexample). -/
theorem convert_audio_to_wav_spec (audio : List Nat) :
    (audio.take 4 = riffMagic ∧ (audio.drop 8).take 4 = waveMagic →
      convert_audio_to_wav audio 16000 1 = audio) ∧
    (¬(audio.take 4 = riffMagic ∧ (audio.drop 8).take 4 = waveMagic) →
      audio.length ≤ 4294967259 →
      convert_audio_to_wav audio 16000 1
        = (riffMagic ++ le32 (36 + audio.length) ++ waveMagic ++ fmtMagic
            ++ le32 16 ++ le16 1 ++ le16 1 ++ le32 16000 ++ le32 32000
            ++ le16 2 ++ le16 16 ++ dataMagic ++ le32 audio.length) ++ audio ∧
      (riffMagic ++ le32 (36 + audio.length) ++ waveMagic ++ fmtMagic
          ++ le32 16 ++ le16 1 ++ le16 1 ++ le32 16000 ++ le32 32000
          ++ le16 2 ++ le16 16 ++ dataMagic ++ le32 audio.length).length = 44) := by
  constructor
  · intro h
    unfold convert_audio_to_wav
    rw [if_pos h]
  · intro h hlen
    have h1 : packU32le (36 + audio.length) = some (le32 (36 + audio.length)) := by
      rw [packU32le, if_pos (by omega)]
    have h2 : packU32le audio.length = some (le32 audio.length) := by
      rw [packU32le, if_pos (by omega)]
    have hbuild : build_wav_bytes audio 16000 1
        = some (riffMagic ++ le32 (36 + audio.length) ++ waveMagic ++ fmtMagic
            ++ le32 16 ++ le16 1 ++ le16 1 ++ le32 16000 ++ le32 32000
            ++ le16 2 ++ le16 16 ++ dataMagic ++ le32 audio.length ++ audio) := by
      simp only [build_wav_bytes, h1, h2]
      rfl
    constructor
    · unfold convert_audio_to_wav
      rw [if_neg h, hbuild]
    · simp [riffMagic, waveMagic, fmtMagic, dataMagic, le32, le16]

/-- Witness for C7: the three bytes `[1, 2, 3]` are not RIFF-marked and get
the 44-byte synthesized header; a RIFF/WAVE-marked string passes through. -/
theorem convert_audio_to_wav_spec_witness :
    convert_audio_to_wav [1, 2, 3] 16000 1
      = (riffMagic ++ le32 39 ++ waveMagic ++ fmtMagic ++ le32 16 ++ le16 1
          ++ le16 1 ++ le32 16000 ++ le32 32000 ++ le16 2 ++ le16 16
          ++ dataMagic ++ le32 3) ++ [1, 2, 3] ∧
    convert_audio_to_wav (riffMagic ++ [0, 0, 0, 0] ++ waveMagic) 16000 1
      = riffMagic ++ [0, 0, 0, 0] ++ waveMagic := by
  constructor
  · exact ((convert_audio_to_wav_spec [1, 2, 3]).2 (by decide) (by norm_num)).1
  · exact (convert_audio_to_wav_spec (riffMagic ++ [0, 0, 0, 0] ++ waveMagic)).1
      (by decide)

/-! ## Text chunkers

`AzureRAGService.chunk_text` (src/backend/services/azure_rag_service.py)
and `DocumentService.create_document_chunks`
(src/temp_rag_files/document_service.py). Both while-loops are embedded
fuel-indexed: `none` means the loop has not finished within the given
fuel, so `∀ fuel, ... = none` is non-termination. One loop iteration is a
separate `..._iter` function returning the optionally emitted chunk and
the next cursor. Chunk ids/indices/metadata are not modelled (the claim
concerns cursor advancement and termination). -/

/-- One iteration of `chunk_text`: `end = start + chunk_size`; if `end`
is before the text's end, pull `end` back to just past the last `'.'`
found in `[start, end)` when that position is after `start`; emit the
stripped slice if non-empty; the next cursor is `end - chunk_overlap`
(no lower bound). -/
def chunk_text_iter (text : List Char) (size overlap : Int) (start : Int) :
    Option (List Char) × Int :=
  let e0 := start + size
  let e :=
    if e0 < (text.length : Int) then
      let last_sentence := pyRfind text '.' start e0
      if last_sentence ≠ -1 ∧ last_sentence > start then last_sentence + 1 else e0
    else e0
  let chunk := pyStrip (pySlice text start e)
  (if chunk ≠ [] then some chunk else none, e - overlap)

/-- The `while start < text_length` loop of `chunk_text`, fuel-indexed. -/
def chunk_text_loop (text : List Char) (size overlap : Int) :
    Nat → Int → List (List Char) → Option (List (List Char))
  | 0, start, chunks =>
    if start < (text.length : Int) then none else some chunks
  | fuel + 1, start, chunks =>
    if start < (text.length : Int) then
      chunk_text_loop text size overlap fuel (chunk_text_iter text size overlap start).2
        (chunks ++ (chunk_text_iter text size overlap start).1.toList)
    else some chunks

/-- Method `AzureRAGService.chunk_text` (cursor starts at 0, empty
accumulator). -/
def chunk_text (text : List Char) (size overlap : Int) (fuel : Nat) :
    Option (List (List Char)) :=
  chunk_text_loop text size overlap fuel 0 []

/-- The divergence input: a sentence of 5 characters (ending in `'.'`)
followed by 10 more characters, chunked with size 10, overlap 5. -/
def ctText : List Char := "aaaa.bbbbbbbbbb".toList

theorem ctText_iter : chunk_text_iter ctText 10 5 0 = (some "aaaa.".toList, 0) := by
  decide

theorem chunk_text_ct_stuck :
    ∀ (fuel : Nat) (chunks : List (List Char)),
      chunk_text_loop ctText 10 5 fuel 0 chunks = none := by
  intro fuel
  induction fuel with
  | zero =>
    intro chunks
    simp only [chunk_text_loop]
    rw [if_pos (by decide)]
  | succ n ih =>
    intro chunks
    have hstep : chunk_text_loop ctText 10 5 (n + 1) 0 chunks
        = chunk_text_loop ctText 10 5 n 0 (chunks ++ ["aaaa.".toList]) := by
      simp only [chunk_text_loop, ctText_iter]
      rw [if_pos (by decide)]
      rfl
    rw [hstep]
    exact ih _

/-! ## Claim C2: chunker cursor guard and termination -/

/-- Counterexample to C2 as stated: `AzureRAGService.chunk_text` has no
`max(start + 1, ...)` guard. On `ctText` (a 15-character text whose only
period sits at index 4) with size 10 and overlap 5 (overlap < size), the
first iteration pulls `end` back to 5 and sets the next cursor to
`5 - 5 = 0`, strictly less than `start + 1`; the loop re-enters the same
state, so it is still running after 100 iterations, far beyond the
claimed bound of `ceil(15 / (10 - 5)) = 3` iterations (by
`chunk_text_ct_diverges` it in fact never terminates). -/
theorem chunk_text_counterexample :
    (chunk_text_iter ctText 10 5 0).2 = 0 ∧
    chunk_text ctText 10 5 100 = none :=
  ⟨by decide, chunk_text_ct_stuck 100 []⟩

/-- Full divergence of `chunk_text` on `ctText`: no amount of fuel
finishes the loop. -/
theorem chunk_text_ct_diverges : ∀ fuel : Nat, chunk_text ctText 10 5 fuel = none :=
  fun fuel => chunk_text_ct_stuck fuel []

/-- One iteration of `create_document_chunks`: `end = start + chunk_size`;
if `end` is before the content's end, move `end` to just past the nearer
of the next `'。'` or `'\n'` found in the ±100 window around it, else
clamp `end` to the content length; emit the stripped slice if non-empty;
the next cursor is `max(start + 1, end - chunk_overlap)`. -/
def create_document_chunks_iter (content : List Char) (size overlap : Int)
    (start : Int) : Option (List Char) × Int :=
  let e0 := start + size
  let e :=
    if e0 < (content.length : Int) then
      let next_period := pyFind content '。' (e0 - 100) (e0 + 100)
      let next_newline := pyFind content '\n' (e0 - 100) (e0 + 100)
      if next_period ≠ -1 ∧ (next_newline = -1 ∨ next_period < next_newline) then
        next_period + 1
      else if next_newline ≠ -1 then next_newline + 1
      else e0
    else (content.length : Int)
  let chunk := pyStrip (pySlice content start e)
  (if chunk ≠ [] then some chunk else none, max (start + 1) (e - overlap))

/-- The `while start < len(content)` loop of `create_document_chunks`,
fuel-indexed. -/
def create_document_chunks_loop (content : List Char) (size overlap : Int) :
    Nat → Int → List (List Char) → Option (List (List Char))
  | 0, start, chunks =>
    if start < (content.length : Int) then none else some chunks
  | fuel + 1, start, chunks =>
    if start < (content.length : Int) then
      create_document_chunks_loop content size overlap fuel
        (create_document_chunks_iter content size overlap start).2
        (chunks ++ (create_document_chunks_iter content size overlap start).1.toList)
    else some chunks

/-- Method `DocumentService.create_document_chunks` (cursor starts at 0);
`len(content) + 1` fuel always suffices, by the theorem below. -/
def create_document_chunks (content : List Char) (size overlap : Int) :
    Option (List (List Char)) :=
  create_document_chunks_loop content size overlap (content.length + 1) 0 []

/-- Claim C2, amended: only `DocumentService.create_document_chunks`
advances its cursor to `end - overlap` guarded below by `start + 1`
(`start = max(start + 1, end - chunk_overlap)`), and therefore terminates
— within `len(content) - start` iterations from any cursor, in particular
within `len(content) + 1` loop entries from the start (not within
`ceil(len/(size - overlap))`: boundary adjustment can shorten steps).
`AzureRAGService.chunk_text` lacks the guard and need not terminate (see
the counterexample). -/
theorem create_document_chunks_guard (content : List Char) (size overlap : Int) :
    (∀ start : Int,
      start + 1 ≤ (create_document_chunks_iter content size overlap start).2) ∧
    (∀ (fuel : Nat) (start : Int) (chunks : List (List Char)),
      (content.length : Int) < start + fuel →
      ∃ out, create_document_chunks_loop content size overlap fuel start chunks
        = some out) ∧
    (∃ out, create_document_chunks content size overlap = some out) := by
  have hg : ∀ start : Int,
      start + 1 ≤ (create_document_chunks_iter content size overlap start).2 := by
    intro start
    exact le_max_left _ _
  have hterm : ∀ (fuel : Nat) (start : Int) (chunks : List (List Char)),
      (content.length : Int) < start + fuel →
      ∃ out, create_document_chunks_loop content size overlap fuel start chunks
        = some out := by
    intro fuel
    induction fuel with
    | zero =>
      intro start chunks hb
      refine ⟨chunks, ?_⟩
      simp only [create_document_chunks_loop]
      rw [if_neg (by push_cast at hb; omega)]
    | succ n ih =>
      intro start chunks hb
      by_cases hs : start < (content.length : Int)
      · have hnext := hg start
        obtain ⟨out, hout⟩ := ih (create_document_chunks_iter content size overlap start).2
          (chunks ++ (create_document_chunks_iter content size overlap start).1.toList)
          (by push_cast at hb; omega)
        refine ⟨out, ?_⟩
        simp only [create_document_chunks_loop]
        rw [if_pos hs]
        exact hout
      · refine ⟨chunks, ?_⟩
        simp only [create_document_chunks_loop]
        rw [if_neg hs]
  refine ⟨hg, hterm, ?_⟩
  obtain ⟨out, h⟩ := hterm (content.length + 1) 0 [] (by push_cast; omega)
  exact ⟨out, h⟩

/-- Witness for C2 at the 5-character content `hello`, size 5, overlap 2:
the first cursor advance is at least 1 and the loop finishes within 6
entries. -/
theorem create_document_chunks_guard_witness :
    0 + 1 ≤ (create_document_chunks_iter "hello".toList 5 2 0).2 ∧
    ∃ out, create_document_chunks_loop "hello".toList 5 2 6 0 [] = some out := by
  have h := create_document_chunks_guard "hello".toList 5 2
  exact ⟨h.1 0, h.2.1 6 0 [] (by decide)⟩

/-! ## Simple RAG search (src/temp_rag_files/rag_service.py)

`SimpleEmbeddingService.search_chunks`. Python's `list.sort(key=lambda x:
x[1], reverse=True)` is a stable descending sort by score; a stable sort
by a fixed key is uniquely determined, so it is embedded as a stable
insertion sort (`insertDesc` places each new element after all
already-placed elements of equal score). -/

structure SimpleChunk where
  id : String
  document_id : String
  chunk_index : Nat
  content : List Char
deriving Repr, DecidableEq

/-- Score of one chunk: for each whitespace-delimited word of the
lower-cased query, add `content_lower.count(word)`. -/
def chunk_score (query_words : List (List Char)) (chunk : SimpleChunk) : Nat :=
  (query_words.map (fun w => pyCount (pyLower chunk.content) w)).sum

/-- Stable descending insertion by score: the new element goes before the
first strictly smaller score, hence after all equal scores. -/
def insertDesc (x : SimpleChunk × Nat) :
    List (SimpleChunk × Nat) → List (SimpleChunk × Nat)
  | [] => [x]
  | y :: ys => if y.2 < x.2 then x :: y :: ys else y :: insertDesc x ys

/-- Stable descending sort by score (left fold of `insertDesc`). -/
def sortDesc (l : List (SimpleChunk × Nat)) : List (SimpleChunk × Nat) :=
  l.foldl (fun acc x => insertDesc x acc) []

/-- Method `SimpleEmbeddingService.search_chunks`: score every chunk,
keep the strictly positive scores, sort descending (stably), truncate to
`max_results` and strip the scores. -/
def search_chunks (chunks : List SimpleChunk) (query : List Char)
    (max_results : Nat) : List SimpleChunk :=
  let query_words := pySplitWs (pyLower query)
  let results := (chunks.map (fun c => (c, chunk_score query_words c))).filter
    (fun p => 0 < p.2)
  ((sortDesc results).take max_results).map (fun p => p.1)

theorem insertDesc_perm (x : SimpleChunk × Nat) (l : List (SimpleChunk × Nat)) :
    (insertDesc x l).Perm (x :: l) := by
  induction l with
  | nil => exact List.Perm.refl _
  | cons y ys ih =>
    by_cases h : y.2 < x.2
    · simp only [insertDesc, if_pos h]
      exact List.Perm.refl _
    · simp only [insertDesc, if_neg h]
      exact (ih.cons y).trans (List.Perm.swap x y ys)

theorem foldl_insertDesc_perm (l : List (SimpleChunk × Nat))
    (acc : List (SimpleChunk × Nat)) :
    (l.foldl (fun a x => insertDesc x a) acc).Perm (acc ++ l) := by
  induction l generalizing acc with
  | nil => simp
  | cons x xs ih =>
    simp only [List.foldl_cons]
    refine (ih _).trans ?_
    refine (List.Perm.append_right xs (insertDesc_perm x acc)).trans ?_
    simpa using List.perm_middle.symm

theorem sortDesc_perm (l : List (SimpleChunk × Nat)) : (sortDesc l).Perm l := by
  simpa using foldl_insertDesc_perm l []

theorem insertDesc_sorted (x : SimpleChunk × Nat) (l : List (SimpleChunk × Nat))
    (h : l.Pairwise (fun a b => b.2 ≤ a.2)) :
    (insertDesc x l).Pairwise (fun a b => b.2 ≤ a.2) := by
  induction l with
  | nil => simp [insertDesc]
  | cons y ys ih =>
    rcases List.pairwise_cons.mp h with ⟨hy, hys⟩
    by_cases hc : y.2 < x.2
    · simp only [insertDesc, if_pos hc]
      refine List.pairwise_cons.mpr ⟨?_, h⟩
      intro z hz
      rcases List.mem_cons.mp hz with rfl | hz'
      · exact le_of_lt hc
      · exact le_trans (hy z hz') (le_of_lt hc)
    · simp only [insertDesc, if_neg hc]
      refine List.pairwise_cons.mpr ⟨?_, ih hys⟩
      intro z hz
      rcases List.mem_cons.mp ((insertDesc_perm x ys).mem_iff.mp hz) with rfl | hz'
      · exact Nat.le_of_not_lt hc
      · exact hy z hz'

theorem foldl_insertDesc_sorted (l : List (SimpleChunk × Nat))
    (acc : List (SimpleChunk × Nat))
    (hacc : acc.Pairwise (fun a b => b.2 ≤ a.2)) :
    (l.foldl (fun a x => insertDesc x a) acc).Pairwise (fun a b => b.2 ≤ a.2) := by
  induction l generalizing acc with
  | nil => simpa using hacc
  | cons x xs ih =>
    simp only [List.foldl_cons]
    exact ih _ (insertDesc_sorted x acc hacc)

theorem sortDesc_sorted (l : List (SimpleChunk × Nat)) :
    (sortDesc l).Pairwise (fun a b => b.2 ≤ a.2) :=
  foldl_insertDesc_sorted l [] (by simp)

/-! ## Claim C6: lexical search ranking -/

/-- Claim C6: `search_chunks` keeps exactly the chunks whose summed
term-occurrence score is positive, returns them ordered by descending
score, truncated to `max_results`: every returned chunk has positive
score and comes from the input, scores are non-increasing along the
result, the result length is `min max_results (number of positive-score
chunks)`, and when `max_results` is not exceeded the result is a
permutation of the positive-score chunks. -/
theorem search_chunks_spec (chunks : List SimpleChunk) (query : List Char)
    (maxR : Nat) :
    (∀ c ∈ search_chunks chunks query maxR,
      0 < chunk_score (pySplitWs (pyLower query)) c) ∧
    (search_chunks chunks query maxR).Pairwise
      (fun a b => chunk_score (pySplitWs (pyLower query)) b
        ≤ chunk_score (pySplitWs (pyLower query)) a) ∧
    (search_chunks chunks query maxR).length
      = min maxR (chunks.filter
          (fun c => 0 < chunk_score (pySplitWs (pyLower query)) c)).length ∧
    (∀ c ∈ search_chunks chunks query maxR, c ∈ chunks) ∧
    ((chunks.filter
        (fun c => 0 < chunk_score (pySplitWs (pyLower query)) c)).length ≤ maxR →
      (search_chunks chunks query maxR).Perm
        (chunks.filter (fun c => 0 < chunk_score (pySplitWs (pyLower query)) c))) := by
  have hres : (chunks.map (fun c => (c, chunk_score (pySplitWs (pyLower query)) c))).filter
        (fun p => 0 < p.2)
      = (chunks.filter (fun c => 0 < chunk_score (pySplitWs (pyLower query)) c)).map
          (fun c => (c, chunk_score (pySplitWs (pyLower query)) c)) := by
    rw [List.filter_map]
    rfl
  have hperm := sortDesc_perm ((chunks.map
    (fun c => (c, chunk_score (pySplitWs (pyLower query)) c))).filter (fun p => 0 < p.2))
  have hsorted := sortDesc_sorted ((chunks.map
    (fun c => (c, chunk_score (pySplitWs (pyLower query)) c))).filter (fun p => 0 < p.2))
  have hinv : ∀ p ∈ sortDesc ((chunks.map
      (fun c => (c, chunk_score (pySplitWs (pyLower query)) c))).filter (fun p => 0 < p.2)),
      p.2 = chunk_score (pySplitWs (pyLower query)) p.1 ∧ 0 < p.2 ∧ p.1 ∈ chunks := by
    intro p hp
    have hp' := hperm.mem_iff.mp hp
    obtain ⟨hpm, hppos⟩ := List.mem_filter.mp hp'
    obtain ⟨c, hc, hfc⟩ := List.mem_map.mp hpm
    refine ⟨?_, of_decide_eq_true hppos, ?_⟩
    · rw [← hfc]
    · rw [← hfc]
      exact hc
  have htakemem : ∀ p ∈ (sortDesc ((chunks.map
      (fun c => (c, chunk_score (pySplitWs (pyLower query)) c))).filter
        (fun p => 0 < p.2))).take maxR,
      p.2 = chunk_score (pySplitWs (pyLower query)) p.1 ∧ 0 < p.2 ∧ p.1 ∈ chunks :=
    fun p hp => hinv p ((List.take_sublist _ _).subset hp)
  refine ⟨?_, ?_, ?_, ?_, ?_⟩
  · intro c hc
    obtain ⟨p, hpt, hpc⟩ := List.mem_map.mp hc
    obtain ⟨hps, hppos, _⟩ := htakemem p hpt
    rw [← hpc, ← hps]
    exact hppos
  · show (((sortDesc _).take maxR).map _).Pairwise _
    rw [List.pairwise_map]
    have h1 := hsorted.sublist (List.take_sublist maxR _)
    refine h1.imp_of_mem ?_
    intro a b ha hb hab
    have hsa := (htakemem a ha).1
    have hsb := (htakemem b hb).1
    rw [← hsa, ← hsb]
    exact hab
  · show (((sortDesc _).take maxR).map _).length = _
    rw [List.length_map, List.length_take, hperm.length_eq, hres, List.length_map]
  · intro c hc
    obtain ⟨p, hpt, hpc⟩ := List.mem_map.mp hc
    obtain ⟨_, _, hpin⟩ := htakemem p hpt
    rw [← hpc]
    exact hpin
  · intro hle
    have hlen : (sortDesc ((chunks.map
        (fun c => (c, chunk_score (pySplitWs (pyLower query)) c))).filter
          (fun p => 0 < p.2))).length
        ≤ maxR := by
      rw [hperm.length_eq, hres, List.length_map]
      exact hle
    show (((sortDesc _).take maxR).map _).Perm _
    rw [List.take_all_of_le hlen]
    have hmap := hperm.map (fun p : SimpleChunk × Nat => p.1)
    have hmapres : ((chunks.map
        (fun c => (c, chunk_score (pySplitWs (pyLower query)) c))).filter
          (fun p => 0 < p.2)).map (fun p => p.1)
        = chunks.filter (fun c => 0 < chunk_score (pySplitWs (pyLower query)) c) := by
      rw [hres, List.map_map]
      have hco : ((fun p : SimpleChunk × Nat => p.1)
          ∘ fun c => (c, chunk_score (pySplitWs (pyLower query)) c))
          = fun c : SimpleChunk => c := rfl
      rw [hco]
      exact List.map_id' _
    rw [hmapres] at hmap
    exact hmap

/-- Corpus of the validation example: one chunk containing `avatar` three
times, one containing it once. -/
def avatarChunkThree : SimpleChunk :=
  { id := "d1_chunk_0", document_id := "d1", chunk_index := 0,
    content := "Avatar avatar avatar".toList }

def avatarChunkOne : SimpleChunk :=
  { id := "d2_chunk_0", document_id := "d2", chunk_index := 0,
    content := "the avatar here".toList }

/-- Witness for C6: searching `avatar` over the two-chunk corpus ranks the
three-occurrence chunk first even though it is listed second, and the
result is a permutation of the positive-score chunks. -/
theorem search_chunks_spec_witness :
    search_chunks [avatarChunkOne, avatarChunkThree] "avatar".toList 5
      = [avatarChunkThree, avatarChunkOne] ∧
    (search_chunks [avatarChunkOne, avatarChunkThree] "avatar".toList 5).Perm
      ([avatarChunkOne, avatarChunkThree].filter
        (fun c => 0 < chunk_score (pySplitWs (pyLower "avatar".toList)) c)) := by
  refine ⟨by decide, ?_⟩
  exact (search_chunks_spec [avatarChunkOne, avatarChunkThree]
    "avatar".toList 5).2.2.2.2 (by decide)
